import Mathlib

/-!
Shallow embedding of `src/index.tsx` (webhdmi): device discovery and
grouping (`initDevices`), capture-session start (`startStream`), and the
fullscreen-coupled stop path (`handleFullscreenChange`, the video
element's pause handler).

Platform effects (device enumeration, `getUserMedia`, screen size,
fullscreen state) are passed in explicitly as oracle values; React/Preact
state updates become explicit state records.
-/

/-- Platform device descriptor (`MediaDeviceInfo`). -/
structure MediaDeviceInfo where
  deviceId : String
  kind : String
  groupId : String
  label : String
  deriving DecidableEq

/-- A media track; `track.stop()` clears `running`. -/
structure MediaStreamTrack where
  trackId : String
  running : Bool
  deriving DecidableEq

/-- A media stream as its list of tracks (`stream.getTracks()`). -/
structure MediaStream where
  tracks : List MediaStreamTrack
  deriving DecidableEq

/-- `track.stop()`. -/
def stopTrack (t : MediaStreamTrack) : MediaStreamTrack :=
  { t with running := false }

/-- `stream.getTracks().forEach((track) => track.stop())`. -/
def stopAllTracks (s : MediaStream) : MediaStream :=
  { tracks := s.tracks.map stopTrack }

/-- The app's `DeviceGroup` interface. -/
structure DeviceGroup where
  groupId : String
  video : Option MediaDeviceInfo
  audio : Option MediaDeviceInfo
  label : String
  deriving DecidableEq

/-- The `groups: Record<string, MediaDeviceInfo[]>` object, as an
insertion-ordered association list of its own properties. -/
abbrev GroupMap := List (String × List MediaDeviceInfo)

/-- Property read `groups[k]`. -/
def recordGet (m : GroupMap) (k : String) : Option (List MediaDeviceInfo) :=
  match m with
  | [] => none
  | (k', v) :: rest => if k' = k then some v else recordGet rest k

/-- Property write `groups[k] = v`: updates an existing key in place,
otherwise appends the key at the end of insertion order. -/
def recordSet (m : GroupMap) (k : String) (v : List MediaDeviceInfo) : GroupMap :=
  match m with
  | [] => [(k, v)]
  | (k', v') :: rest =>
    if k' = k then (k, v) :: rest else (k', v') :: recordSet rest k v

/-- The own property keys of the record, in insertion order. -/
def recordKeys (m : GroupMap) : List String :=
  m.map Prod.fst

/-- One iteration of the grouping loop body:
`if (!device.groupId) continue; const group = groups[device.groupId] || [];
groups[device.groupId] = group; group.push(device);`. -/
def addDevice (groups : GroupMap) (device : MediaDeviceInfo) : GroupMap :=
  if device.groupId = "" then groups
  else recordSet groups device.groupId
    (((recordGet groups device.groupId).getD []) ++ [device])

/-- The grouping loop `for (const device of allDevices) ...`. -/
def buildGroups : List MediaDeviceInfo → GroupMap → GroupMap
  | [], groups => groups
  | d :: rest, groups => buildGroups rest (addDevice groups d)

/-- Numeric value of a digit string. -/
def digitsVal (cs : List Char) : Nat :=
  cs.foldl (fun n c => n * 10 + (c.toNat - 48)) 0

/-- Whether a string is a canonical array-index property key in the sense
of ECMAScript (a digits-only canonical numeral whose value is below
2^32 - 1).  JavaScript objects enumerate such keys first, in ascending
numeric order, before the other string keys in insertion order. -/
def isArrayIndexKey (s : String) : Bool :=
  match s.data with
  | [] => false
  | c :: cs =>
    (c :: cs).all Char.isDigit && (cs.isEmpty || !(c == '0'))
      && digitsVal (c :: cs) < 4294967295

/-- Numeric sort key for an array-index record entry. -/
def indexKeyNum (e : String × List MediaDeviceInfo) : Nat :=
  digitsVal e.1.data

/-- `Object.values(groups)`: own enumerable property values following the
ECMAScript own-property-key order — canonical array-index keys first in
ascending numeric order, then the remaining string keys in insertion
order. -/
def objectValues (m : GroupMap) : List (List MediaDeviceInfo) :=
  ((List.insertionSort (fun a b => indexKeyNum a ≤ indexKeyNum b)
      (m.filter (fun e => isArrayIndexKey e.1)))
    ++ m.filter (fun e => !isArrayIndexKey e.1)).map Prod.snd

/-- Body of the `Object.values(groups).forEach((group) => ...)` pass:
find the first video-input and first audio-input descriptor of a bucket
and emit a `DeviceGroup` when both exist. -/
def groupFromBucket (group : List MediaDeviceInfo) : Option DeviceGroup :=
  match group.find? (fun d => d.kind == "videoinput"),
        group.find? (fun d => d.kind == "audioinput") with
  | some video, some audio =>
    some { groupId := video.groupId
           video := some video
           audio := some audio
           label := if video.label == "" then "Unknown Capture Device" else video.label }
  | _, _ => none

/-- The `forEach` loop accumulating `validGroups` by `push`. -/
def collectValidGroups : List (List MediaDeviceInfo) → List DeviceGroup → List DeviceGroup
  | [], acc => acc
  | group :: rest, acc =>
    match groupFromBucket group with
    | some g => collectValidGroups rest (acc ++ [g])
    | none => collectValidGroups rest acc

/-- The full grouping phase of `initDevices`: bucket the descriptors by
`groupId` (skipping empty group ids), then keep the buckets that contain
both a video input and an audio input, in `Object.values` order. -/
def validGroupsOf (allDevices : List MediaDeviceInfo) : List DeviceGroup :=
  collectValidGroups (objectValues (buildGroups allDevices [])) []

/-- Oracle for the platform calls made by `initDevices`: the first
enumeration, the result of the permission probe
`getUserMedia({audio: true, video: true})`, and the re-enumeration. -/
structure DiscoveryPlatform where
  enumerate1 : Except String (List MediaDeviceInfo)
  probeResult : Except String MediaStream
  enumerate2 : Except String (List MediaDeviceInfo)

/-- Outcome of one run of `initDevices`: whether (and with what generic
constraints) the probe `getUserMedia` was issued, the probe stream after
its tracks were stopped, and the resulting component state. -/
structure DiscoveryResult where
  probeRequest : Option (Bool × Bool)
  probeStopped : Option MediaStream
  devices : List DeviceGroup
  selectedGroupId : String
  error : Option String
  deriving DecidableEq

/-- The `catch` block's message formatting. -/
def discoveryError (msg : String) : String :=
  "Error: " ++ msg ++ ". Ensure HTTPS/localhost and grant permissions."

/-- Tail of `initDevices` after `allDevices` is settled: grouping,
`setDevices`, and the conditional `setSelectedGroupId` (the selection
state keeps its initial `""` when no valid group exists). -/
def finishDiscovery (probeRequest : Option (Bool × Bool))
    (probeStopped : Option MediaStream)
    (allDevices : List MediaDeviceInfo) : DiscoveryResult :=
  let validGroups := validGroupsOf allDevices
  { probeRequest := probeRequest
    probeStopped := probeStopped
    devices := validGroups
    selectedGroupId :=
      match validGroups.head? with
      | some g => g.groupId
      | none => ""
    error := none }

/-- The `initDevices` effect: enumerate; when no descriptor carries a
non-empty label, probe with `{audio: true, video: true}`, stop every
track of the probe stream, and re-enumerate; then group.  Any platform
rejection lands in the `catch` block. -/
def initDevices (p : DiscoveryPlatform) : DiscoveryResult :=
  match p.enumerate1 with
  | .error e =>
    { probeRequest := none, probeStopped := none, devices := [],
      selectedGroupId := "", error := some (discoveryError e) }
  | .ok allDevices =>
    if allDevices.any (fun d => d.label != "") then
      finishDiscovery none none allDevices
    else
      match p.probeResult with
      | .error e =>
        { probeRequest := some (true, true), probeStopped := none, devices := [],
          selectedGroupId := "", error := some (discoveryError e) }
      | .ok stream =>
        let stopped := stopAllTracks stream
        match p.enumerate2 with
        | .error e =>
          { probeRequest := some (true, true), probeStopped := some stopped,
            devices := [], selectedGroupId := "", error := some (discoveryError e) }
        | .ok allDevices2 => finishDiscovery (some (true, true)) (some stopped) allDevices2

/-- The `<video>` display sink; `srcObject` is its stream binding. -/
structure VideoElem where
  srcObject : Option MediaStream
  deriving DecidableEq

/-- Component state relevant to the session lifecycle.  `videoRef` is
`videoRef.current`: `none` models a not-yet-mounted sink element. -/
structure AppState where
  devices : List DeviceGroup
  selectedGroupId : String
  isStreaming : Bool
  error : Option String
  videoRef : Option VideoElem
  deriving DecidableEq

/-- A numeric constraint value: `{ exact: n }` or `{ ideal: n }`. -/
inductive NatConstraint where
  | exact (value : Nat)
  | ideal (value : Nat)
  deriving DecidableEq

/-- A string constraint value: `{ exact: s }` or `{ ideal: s }`. -/
inductive StringConstraint where
  | exact (value : String)
  | ideal (value : String)
  deriving DecidableEq

/-- The video member of the `MediaStreamConstraints` built by `startStream`. -/
structure VideoConstraintSet where
  deviceId : StringConstraint
  width : NatConstraint
  height : NatConstraint
  deriving DecidableEq

/-- The audio member of the `MediaStreamConstraints` built by `startStream`. -/
structure AudioConstraintSet where
  deviceId : StringConstraint
  echoCancellation : Bool
  noiseSuppression : Bool
  autoGainControl : Bool
  deriving DecidableEq

/-- The constraints object passed to `getUserMedia` by `startStream`. -/
structure MediaStreamConstraints where
  video : VideoConstraintSet
  audio : AudioConstraintSet
  deriving DecidableEq

/-- Oracle for the platform during one `startStream` call: the host
screen dimensions and the outcome of the `getUserMedia` call. -/
structure StartPlatform where
  screenWidth : Nat
  screenHeight : Nat
  gumResult : Except String MediaStream

/-- Outcome of one `startStream` call: the resulting component state, the
constraints of every `getUserMedia` acquisition issued by this call, the
acquired stream (if any), the `alert` text (if any), and whether the
delayed fullscreen request was scheduled. -/
structure StartResult where
  state : AppState
  requested : List MediaStreamConstraints
  acquired : Option MediaStream
  alerted : Option String
  fullscreenScheduled : Bool
  deriving DecidableEq

/-- `startStream`: look up the selected group (unknown or incomplete
selection returns without any acquisition), build the pinned constraints,
call `getUserMedia`, and on success bind the stream to the sink and set
`isStreaming` (when the sink element is mounted). -/
def startStream (s : AppState) (p : StartPlatform) : StartResult :=
  match s.devices.find? (fun d => d.groupId == s.selectedGroupId) with
  | none => { state := s, requested := [], acquired := none, alerted := none,
              fullscreenScheduled := false }
  | some group =>
    match group.video, group.audio with
    | some video, some audio =>
      let constraints : MediaStreamConstraints :=
        { video :=
            { deviceId := .exact video.deviceId
              width := .ideal p.screenWidth
              height := .ideal p.screenHeight }
          audio :=
            { deviceId := .exact audio.deviceId
              echoCancellation := false
              noiseSuppression := false
              autoGainControl := false } }
      match p.gumResult with
      | .error msg =>
        { state := s, requested := [constraints], acquired := none,
          alerted := some ("Failed to start stream: " ++ msg),
          fullscreenScheduled := false }
      | .ok stream =>
        match s.videoRef with
        | some el =>
          { state := { s with videoRef := some { el with srcObject := some stream },
                              isStreaming := true }
            requested := [constraints]
            acquired := some stream
            alerted := none
            fullscreenScheduled := true }
        | none =>
          { state := s, requested := [constraints], acquired := some stream,
            alerted := none, fullscreenScheduled := false }
    | _, _ => { state := s, requested := [], acquired := none, alerted := none,
                fullscreenScheduled := false }

/-- Outcome of a `fullscreenchange` delivery: the resulting component
state, and the final disposition of the stream that was bound to the sink
(with its tracks stopped), when one was bound. -/
structure StopResult where
  state : AppState
  stoppedStream : Option MediaStream
  deriving DecidableEq

/-- `handleFullscreenChange`: when `document.fullscreenElement` is null,
leave streaming mode, stop every track of the bound stream, and clear the
sink binding. -/
def handleFullscreenChange (s : AppState) (fullscreenElement : Option Unit) : StopResult :=
  match fullscreenElement with
  | some _ => { state := s, stoppedStream := none }
  | none =>
    let s1 := { s with isStreaming := false }
    match s1.videoRef with
    | none => { state := s1, stoppedStream := none }
    | some el =>
      match el.srcObject with
      | none =>
        { state := { s1 with videoRef := some { el with srcObject := none } }
          stoppedStream := none }
      | some stream =>
        { state := { s1 with videoRef := some { el with srcObject := none } }
          stoppedStream := some (stopAllTracks stream) }

/-- Actions a sink event handler can request from the platform. -/
inductive UIEvent where
  | exitFullscreenRequest
  deriving DecidableEq

/-- The sink's pause handler: `onPause={() => document.exitFullscreen()}`. -/
def videoOnPause : UIEvent := .exitFullscreenRequest

/-- Platform completion of `document.exitFullscreen()`: the fullscreen
element becomes null and the `fullscreenchange` listener runs. -/
def dispatchExitFullscreen (s : AppState) : StopResult :=
  handleFullscreenChange s none

/-- The media-pause stop path: the pause handler requests fullscreen
exit, whose completion triggers the `fullscreenchange` stop. -/
def pauseStop (s : AppState) : StopResult :=
  match videoOnPause with
  | .exitFullscreenRequest => dispatchExitFullscreen s

/-- Invariant of the grouping record: keys are distinct, every key is a
non-empty group id, and every bucket is non-empty and holds exactly the
descriptors carrying its key. -/
def GoodMap (m : GroupMap) : Prop :=
  (recordKeys m).Nodup ∧ ∀ e ∈ m, e.1 ≠ "" ∧ e.2 ≠ [] ∧ ∀ d ∈ e.2, d.groupId = e.1

/-- Whether the bucket stored at key `k` contains both a video input and
an audio input (the condition under which the `forEach` emits a group). -/
def bucketComplete (m : GroupMap) (k : String) : Bool :=
  (((recordGet m k).getD []).find? (fun d => d.kind == "videoinput")).isSome
    && (((recordGet m k).getD []).find? (fun d => d.kind == "audioinput")).isSome


/-! ### Association-record lemmas -/

theorem recordKeys_nil : recordKeys [] = [] := rfl

theorem recordKeys_cons (k : String) (v : List MediaDeviceInfo) (m : GroupMap) :
    recordKeys ((k, v) :: m) = k :: recordKeys m := rfl

theorem mem_recordKeys_of_mem (m : GroupMap) (e : String × List MediaDeviceInfo)
    (h : e ∈ m) : e.1 ∈ recordKeys m :=
  List.mem_map_of_mem Prod.fst h

theorem recordGet_recordSet_self (m : GroupMap) (k : String) (v : List MediaDeviceInfo) :
    recordGet (recordSet m k v) k = some v := by
  induction m with
  | nil => simp [recordSet, recordGet]
  | cons e rest ih =>
    obtain ⟨k', v'⟩ := e
    by_cases h : k' = k
    · subst h; simp [recordSet, recordGet]
    · simp [recordSet, recordGet, h, ih]

theorem recordGet_recordSet_ne (m : GroupMap) (k : String) (v : List MediaDeviceInfo)
    (k' : String) (h : k' ≠ k) :
    recordGet (recordSet m k v) k' = recordGet m k' := by
  have h2 : ¬(k = k') := fun hh => h hh.symm
  induction m with
  | nil =>
    simp only [recordSet, recordGet]
    rw [if_neg h2]
  | cons e rest ih =>
    obtain ⟨ka, va⟩ := e
    by_cases hk : ka = k
    · subst hk
      simp only [recordSet, if_pos rfl, recordGet]
      rw [if_neg h2, if_neg h2]
    · by_cases hk2 : ka = k'
      · subst hk2
        simp [recordSet, if_neg hk, recordGet]
      · simp only [recordSet, if_neg hk, recordGet, if_neg hk2]
        exact ih

theorem recordKeys_recordSet (m : GroupMap) (k : String) (v : List MediaDeviceInfo) :
    recordKeys (recordSet m k v) =
      if k ∈ recordKeys m then recordKeys m else recordKeys m ++ [k] := by
  induction m with
  | nil => simp [recordSet, recordKeys]
  | cons e rest ih =>
    obtain ⟨ka, va⟩ := e
    by_cases h : ka = k
    · subst h
      simp [recordSet, recordKeys_cons]
    · have h2 : ¬(k = ka) := fun hh => h hh.symm
      simp only [recordSet, if_neg h, recordKeys_cons, List.mem_cons]
      by_cases hm : k ∈ recordKeys rest
      · rw [ih, if_pos hm, if_pos (Or.inr hm)]
      · rw [ih, if_neg hm, if_neg (by rintro (hh | hh); exact h2 hh; exact hm hh)]
        rfl

theorem mem_recordKeys_iff_isSome (m : GroupMap) (k : String) :
    k ∈ recordKeys m ↔ (recordGet m k).isSome := by
  induction m with
  | nil => simp [recordKeys, recordGet]
  | cons e rest ih =>
    obtain ⟨ka, va⟩ := e
    by_cases h : ka = k
    · subst h
      simp [recordKeys_cons, recordGet]
    · have h2 : ¬(k = ka) := fun hh => h hh.symm
      rw [recordKeys_cons, List.mem_cons]
      simp only [recordGet, if_neg h]
      constructor
      · rintro (hh | hh)
        · exact absurd hh h2
        · exact ih.mp hh
      · intro hh
        exact Or.inr (ih.mpr hh)

theorem mem_of_recordGet (m : GroupMap) (k : String) (v : List MediaDeviceInfo)
    (h : recordGet m k = some v) : (k, v) ∈ m := by
  induction m with
  | nil => simp [recordGet] at h
  | cons e rest ih =>
    obtain ⟨ka, va⟩ := e
    by_cases hk : ka = k
    · subst hk
      simp only [recordGet, if_true, eq_self_iff_true, if_pos, Option.some.injEq] at h
      subst h
      exact List.mem_cons_self _ _
    · simp only [recordGet, if_neg hk] at h
      exact List.mem_cons_of_mem _ (ih h)

theorem recordGet_of_mem_nodup (m : GroupMap) (k : String) (v : List MediaDeviceInfo)
    (hnd : (recordKeys m).Nodup) (h : (k, v) ∈ m) : recordGet m k = some v := by
  induction m with
  | nil => simp at h
  | cons e rest ih =>
    obtain ⟨ka, va⟩ := e
    rw [recordKeys_cons] at hnd
    obtain ⟨hka, hrest⟩ := List.nodup_cons.mp hnd
    rcases List.mem_cons.mp h with heq | hmem
    · have h1 : k = ka := congrArg Prod.fst heq
      have h2 : v = va := congrArg Prod.snd heq
      subst h1; subst h2
      simp [recordGet]
    · have hk : ka ≠ k := by
        intro hh
        subst hh
        exact hka (mem_recordKeys_of_mem rest (ka, v) hmem)
      simp only [recordGet, if_neg hk]
      exact ih hrest hmem

theorem mem_recordSet (m : GroupMap) (k : String) (v : List MediaDeviceInfo)
    (e : String × List MediaDeviceInfo) (h : e ∈ recordSet m k v) :
    e = (k, v) ∨ e ∈ m := by
  induction m with
  | nil =>
    simp [recordSet] at h
    exact Or.inl h
  | cons e' rest ih =>
    obtain ⟨ka, va⟩ := e'
    by_cases hk : ka = k
    · subst hk
      simp only [recordSet, if_pos rfl] at h
      rcases List.mem_cons.mp h with hh | hh
      · exact Or.inl hh
      · exact Or.inr (List.mem_cons_of_mem _ hh)
    · simp only [recordSet, if_neg hk] at h
      rcases List.mem_cons.mp h with hh | hh
      · exact Or.inr (hh ▸ List.mem_cons_self _ _)
      · rcases ih hh with h2 | h2
        · exact Or.inl h2
        · exact Or.inr (List.mem_cons_of_mem _ h2)

theorem nodup_recordKeys_recordSet (m : GroupMap) (k : String) (v : List MediaDeviceInfo)
    (hnd : (recordKeys m).Nodup) : (recordKeys (recordSet m k v)).Nodup := by
  rw [recordKeys_recordSet]
  by_cases hm : k ∈ recordKeys m
  · rw [if_pos hm]; exact hnd
  · rw [if_neg hm]
    exact List.Nodup.append hnd (List.nodup_singleton k)
      (by simpa [List.disjoint_singleton] using hm)

/-! ### Grouping invariants -/

theorem goodMap_nil : GoodMap [] := ⟨List.nodup_nil, by simp⟩

theorem goodMap_addDevice (m : GroupMap) (d : MediaDeviceInfo) (hm : GoodMap m) :
    GoodMap (addDevice m d) := by
  obtain ⟨hnd, hent⟩ := hm
  unfold addDevice
  by_cases hg : d.groupId = ""
  · rw [if_pos hg]; exact ⟨hnd, hent⟩
  · rw [if_neg hg]
    refine ⟨nodup_recordKeys_recordSet _ _ _ hnd, ?_⟩
    intro e he
    rcases mem_recordSet _ _ _ _ he with heq | hmem
    · subst heq
      refine ⟨hg, by simp, ?_⟩
      intro x hx
      rcases List.mem_append.mp hx with hx | hx
      · cases hrg : recordGet m d.groupId with
        | none => rw [hrg] at hx; simp at hx
        | some old =>
          rw [hrg] at hx
          simp only [Option.getD_some] at hx
          exact (hent (d.groupId, old) (mem_of_recordGet _ _ _ hrg)).2.2 x hx
      · simp at hx; subst hx; rfl
    · exact hent e hmem

theorem goodMap_buildGroups (ds : List MediaDeviceInfo) (acc : GroupMap)
    (hacc : GoodMap acc) : GoodMap (buildGroups ds acc) := by
  induction ds generalizing acc with
  | nil => exact hacc
  | cons d rest ih => exact ih _ (goodMap_addDevice _ _ hacc)

theorem recordGet_buildGroups_getD (ds : List MediaDeviceInfo) (acc : GroupMap) (k : String)
    (hk : k ≠ "") :
    (recordGet (buildGroups ds acc) k).getD [] =
      (recordGet acc k).getD [] ++ ds.filter (fun d => d.groupId == k) := by
  induction ds generalizing acc with
  | nil => simp [buildGroups]
  | cons d rest ih =>
    show (recordGet (buildGroups rest (addDevice acc d)) k).getD [] = _
    rw [ih (addDevice acc d), List.filter_cons]
    by_cases hd : d.groupId = k
    · have hdne : d.groupId ≠ "" := fun hh => hk (hd.symm.trans hh)
      rw [addDevice, if_neg hdne, hd, recordGet_recordSet_self]
      simp [hd]
    · by_cases hde : d.groupId = ""
      · rw [addDevice, if_pos hde]
        simp [hd]
      · rw [addDevice, if_neg hde,
          recordGet_recordSet_ne _ _ _ k (fun hh => hd hh.symm)]
        simp [hd]

theorem recordGet_buildGroups_eq (ds : List MediaDeviceInfo) (k : String) (hk : k ≠ "") :
    recordGet (buildGroups ds []) k =
      if ds.filter (fun d => d.groupId == k) = [] then none
      else some (ds.filter (fun d => d.groupId == k)) := by
  have hgetD := recordGet_buildGroups_getD ds [] k hk
  have h0 : (recordGet ([] : GroupMap) k).getD [] = [] := rfl
  rw [h0, List.nil_append] at hgetD
  have hgood := goodMap_buildGroups ds [] goodMap_nil
  cases hr : recordGet (buildGroups ds []) k with
  | none =>
    rw [hr] at hgetD
    simp only [Option.getD_none] at hgetD
    rw [if_pos hgetD.symm]
  | some v =>
    rw [hr] at hgetD
    simp only [Option.getD_some] at hgetD
    have hvne : v ≠ [] := (hgood.2 (k, v) (mem_of_recordGet _ _ _ hr)).2.1
    rw [if_neg (hgetD ▸ hvne), hgetD]

theorem mem_objectValues (m : GroupMap) (bucket : List MediaDeviceInfo) :
    bucket ∈ objectValues m ↔ ∃ k, (k, bucket) ∈ m := by
  unfold objectValues
  rw [List.mem_map]
  constructor
  · rintro ⟨⟨k, v⟩, he, rfl⟩
    rcases List.mem_append.mp he with he | he
    · have hmem := (List.perm_insertionSort
        (fun a b => indexKeyNum a ≤ indexKeyNum b) _).mem_iff.mp he
      exact ⟨k, (List.mem_filter.mp hmem).1⟩
    · exact ⟨k, (List.mem_filter.mp he).1⟩
  · rintro ⟨k, hk⟩
    refine ⟨(k, bucket), ?_, rfl⟩
    rw [List.mem_append]
    by_cases hi : isArrayIndexKey k
    · left
      exact (List.perm_insertionSort (fun a b => indexKeyNum a ≤ indexKeyNum b) _).mem_iff.mpr
        (List.mem_filter.mpr ⟨hk, by simpa using hi⟩)
    · right
      exact List.mem_filter.mpr ⟨hk, by simpa using hi⟩

theorem collectValidGroups_eq (l : List (List MediaDeviceInfo)) (acc : List DeviceGroup) :
    collectValidGroups l acc = acc ++ l.filterMap groupFromBucket := by
  induction l generalizing acc with
  | nil => simp [collectValidGroups]
  | cons b rest ih =>
    rw [List.filterMap_cons]
    cases hb : groupFromBucket b with
    | none =>
      have hstep : collectValidGroups (b :: rest) acc = collectValidGroups rest acc := by
        simp only [collectValidGroups]
        rw [hb]
      rw [hstep, ih]
    | some g =>
      have hstep : collectValidGroups (b :: rest) acc = collectValidGroups rest (acc ++ [g]) := by
        simp only [collectValidGroups]
        rw [hb]
      rw [hstep, ih]
      simp

theorem mem_validGroupsOf (ds : List MediaDeviceInfo) (grp : DeviceGroup) :
    grp ∈ validGroupsOf ds ↔
      ∃ k bucket, (k, bucket) ∈ buildGroups ds [] ∧ groupFromBucket bucket = some grp := by
  unfold validGroupsOf
  rw [collectValidGroups_eq, List.nil_append, List.mem_filterMap]
  constructor
  · rintro ⟨bucket, hb, hgb⟩
    obtain ⟨k, hk⟩ := (mem_objectValues _ _).mp hb
    exact ⟨k, bucket, hk, hgb⟩
  · rintro ⟨k, bucket, hk, hgb⟩
    exact ⟨bucket, (mem_objectValues _ _).mpr ⟨k, hk⟩, hgb⟩

theorem groupFromBucket_eq_some (bucket : List MediaDeviceInfo) (grp : DeviceGroup)
    (h : groupFromBucket bucket = some grp) :
    ∃ video audio,
      bucket.find? (fun d => d.kind == "videoinput") = some video ∧
      bucket.find? (fun d => d.kind == "audioinput") = some audio ∧
      grp = { groupId := video.groupId, video := some video, audio := some audio,
              label := if video.label == "" then "Unknown Capture Device" else video.label } := by
  unfold groupFromBucket at h
  cases hv : bucket.find? (fun d => d.kind == "videoinput") with
  | none =>
    rw [hv] at h
    cases ha : bucket.find? (fun d => d.kind == "audioinput") with
    | none => rw [ha] at h; simp at h
    | some a => rw [ha] at h; simp at h
  | some video =>
    rw [hv] at h
    cases ha : bucket.find? (fun d => d.kind == "audioinput") with
    | none => rw [ha] at h; simp at h
    | some audio =>
      rw [ha] at h
      exact ⟨video, audio, rfl, rfl, (Option.some.inj h).symm⟩

theorem bucket_eq_filter (ds : List MediaDeviceInfo) (k : String)
    (bucket : List MediaDeviceInfo) (hk : k ≠ "")
    (h : recordGet (buildGroups ds []) k = some bucket) :
    bucket = ds.filter (fun d => d.groupId == k) := by
  rw [recordGet_buildGroups_eq ds k hk] at h
  by_cases hf : ds.filter (fun d => d.groupId == k) = []
  · rw [if_pos hf] at h; cases h
  · rw [if_neg hf] at h; exact (Option.some.inj h).symm

theorem validGroupsOf_label (ds : List MediaDeviceInfo) (grp : DeviceGroup)
    (h : grp ∈ validGroupsOf ds) :
    ∃ v, grp.video = some v ∧
      grp.label = (if v.label = "" then "Unknown Capture Device" else v.label) := by
  obtain ⟨k, bucket, hkb, hgb⟩ := (mem_validGroupsOf ds grp).mp h
  obtain ⟨video, audio, hv, ha, rfl⟩ := groupFromBucket_eq_some bucket grp hgb
  refine ⟨video, rfl, ?_⟩
  by_cases hl : video.label = ""
  · simp [hl]
  · simp [hl]

theorem validGroupsOf_groupId_ne (ds : List MediaDeviceInfo) (grp : DeviceGroup)
    (h : grp ∈ validGroupsOf ds) : grp.groupId ≠ "" := by
  obtain ⟨k, bucket, hkb, hgb⟩ := (mem_validGroupsOf ds grp).mp h
  obtain ⟨video, audio, hv, ha, rfl⟩ := groupFromBucket_eq_some bucket grp hgb
  have hgood := goodMap_buildGroups ds [] goodMap_nil
  have hent := hgood.2 (k, bucket) hkb
  have hvk : video.groupId = k :=
    hent.2.2 video (List.mem_of_find?_eq_some hv)
  show video.groupId ≠ ""
  rw [hvk]
  exact hent.1

theorem exists_validGroup_iff (ds : List MediaDeviceInfo) (g : String) (hg : g ≠ "") :
    (∃ grp ∈ validGroupsOf ds, grp.groupId = g) ↔
      ((∃ v ∈ ds, v.kind = "videoinput" ∧ v.groupId = g) ∧
       (∃ a ∈ ds, a.kind = "audioinput" ∧ a.groupId = g)) := by
  constructor
  · rintro ⟨grp, hmem, hgid⟩
    obtain ⟨k, bucket, hkb, hgb⟩ := (mem_validGroupsOf ds grp).mp hmem
    obtain ⟨video, audio, hv, ha, rfl⟩ := groupFromBucket_eq_some bucket grp hgb
    have hgood := goodMap_buildGroups ds [] goodMap_nil
    have hent := hgood.2 (k, bucket) hkb
    have hvmem : video ∈ bucket := List.mem_of_find?_eq_some hv
    have hamem : audio ∈ bucket := List.mem_of_find?_eq_some ha
    have hvk : video.groupId = k := hent.2.2 video hvmem
    have hak : audio.groupId = k := hent.2.2 audio hamem
    have hkg : k = g := by
      have : video.groupId = g := hgid
      rw [this] at hvk; exact hvk.symm
    subst hkg
    have hrg : recordGet (buildGroups ds []) k = some bucket :=
      recordGet_of_mem_nodup _ _ _ hgood.1 hkb
    have hbf := bucket_eq_filter ds k bucket hent.1 hrg
    rw [hbf] at hvmem hamem
    constructor
    · exact ⟨video, (List.mem_filter.mp hvmem).1,
        by simpa using List.find?_some hv, hvk⟩
    · exact ⟨audio, (List.mem_filter.mp hamem).1,
        by simpa using List.find?_some ha, hak⟩
  · rintro ⟨⟨v, hvds, hvkind, hvg⟩, ⟨a, hads, hakind, hag⟩⟩
    have hfne : ds.filter (fun d => d.groupId == g) ≠ [] := by
      intro hq
      rw [List.filter_eq_nil_iff] at hq
      exact hq v hvds (by simp [hvg])
    have hrg : recordGet (buildGroups ds []) g =
        some (ds.filter (fun d => d.groupId == g)) := by
      rw [recordGet_buildGroups_eq ds g hg, if_neg hfne]
    have hkb : (g, ds.filter (fun d => d.groupId == g)) ∈ buildGroups ds [] :=
      mem_of_recordGet _ _ _ hrg
    have hvfind : ((ds.filter (fun d => d.groupId == g)).find?
        (fun d => d.kind == "videoinput")).isSome := by
      rw [List.find?_isSome]
      exact ⟨v, List.mem_filter.mpr ⟨hvds, by simp [hvg]⟩, by simp [hvkind]⟩
    have hafind : ((ds.filter (fun d => d.groupId == g)).find?
        (fun d => d.kind == "audioinput")).isSome := by
      rw [List.find?_isSome]
      exact ⟨a, List.mem_filter.mpr ⟨hads, by simp [hag]⟩, by simp [hakind]⟩
    obtain ⟨video, hv⟩ := Option.isSome_iff_exists.mp hvfind
    obtain ⟨audio, ha⟩ := Option.isSome_iff_exists.mp hafind
    have hgb : groupFromBucket (ds.filter (fun d => d.groupId == g)) =
        some { groupId := video.groupId, video := some video, audio := some audio,
               label := if video.label == "" then "Unknown Capture Device"
                        else video.label } := by
      unfold groupFromBucket
      rw [hv, ha]
    refine ⟨_, (mem_validGroupsOf ds _).mpr ⟨g, _, hkb, hgb⟩, ?_⟩
    have hvmem : video ∈ ds.filter (fun d => d.groupId == g) :=
      List.mem_of_find?_eq_some hv
    have := (List.mem_filter.mp hvmem).2
    simpa using this

/-! ### Claim theorems: discovery and grouping -/

/-- Claim C2, as stated, is false: both a video-input and an audio-input
descriptor may share the group id `""`, yet no `DeviceGroup` is produced
for it, because the grouping loop skips descriptors whose `groupId` is
empty.  This closed counterexample refutes the biconditional at that
input. -/
theorem c2_counterexample :
    ¬ ((∃ grp ∈ validGroupsOf
          [⟨"v0", "videoinput", "", "Cam"⟩, ⟨"a0", "audioinput", "", "Mic"⟩],
        grp.groupId = "") ↔
       ((∃ v ∈ [(⟨"v0", "videoinput", "", "Cam"⟩ : MediaDeviceInfo),
            ⟨"a0", "audioinput", "", "Mic"⟩],
           v.kind = "videoinput" ∧ v.groupId = "") ∧
        (∃ a ∈ [(⟨"v0", "videoinput", "", "Cam"⟩ : MediaDeviceInfo),
            ⟨"a0", "audioinput", "", "Mic"⟩],
           a.kind = "audioinput" ∧ a.groupId = ""))) := by decide

/-- Claim C2, amended: for every set of raw descriptors and every
NON-EMPTY group id `g`, a `DeviceGroup` with group id `g` is produced iff
the set contains at least one video-input and at least one audio-input
descriptor whose `groupId` is `g`. -/
theorem c2_grouping_iff (ds : List MediaDeviceInfo) (g : String) (hg : g ≠ "") :
    (∃ grp ∈ validGroupsOf ds, grp.groupId = g) ↔
      ((∃ v ∈ ds, v.kind = "videoinput" ∧ v.groupId = g) ∧
       (∃ a ∈ ds, a.kind = "audioinput" ∧ a.groupId = g)) :=
  exists_validGroup_iff ds g hg

/-- Witness for `c2_grouping_iff` at a concrete input. -/
theorem c2_grouping_iff_witness :
    ("gid" : String) ≠ "" ∧
    ((∃ grp ∈ validGroupsOf [⟨"vg", "videoinput", "gid", "Cam"⟩,
        ⟨"ag", "audioinput", "gid", "Mic"⟩], grp.groupId = "gid") ↔
      ((∃ v ∈ [(⟨"vg", "videoinput", "gid", "Cam"⟩ : MediaDeviceInfo),
          ⟨"ag", "audioinput", "gid", "Mic"⟩],
          v.kind = "videoinput" ∧ v.groupId = "gid") ∧
       (∃ a ∈ [(⟨"vg", "videoinput", "gid", "Cam"⟩ : MediaDeviceInfo),
          ⟨"ag", "audioinput", "gid", "Mic"⟩],
          a.kind = "audioinput" ∧ a.groupId = "gid"))) :=
  ⟨by decide,
   c2_grouping_iff [⟨"vg", "videoinput", "gid", "Cam"⟩, ⟨"ag", "audioinput", "gid", "Mic"⟩]
     "gid" (by decide)⟩

/-- Claim C9: every discovered group's label is its video descriptor's
label, or the literal `"Unknown Capture Device"` when that label is
empty. -/
theorem c9_label_fallback (ds : List MediaDeviceInfo) (grp : DeviceGroup)
    (h : grp ∈ validGroupsOf ds) :
    ∃ v, grp.video = some v ∧
      grp.label = (if v.label = "" then "Unknown Capture Device" else v.label) :=
  validGroupsOf_label ds grp h

/-- Witness for `c9_label_fallback`: a concrete group whose video
descriptor has an empty label. -/
theorem c9_label_fallback_witness :
    (⟨"gid", some ⟨"vg", "videoinput", "gid", ""⟩,
        some ⟨"ag", "audioinput", "gid", "Mic"⟩,
        "Unknown Capture Device"⟩ : DeviceGroup) ∈
      validGroupsOf [⟨"vg", "videoinput", "gid", ""⟩, ⟨"ag", "audioinput", "gid", "Mic"⟩] ∧
    ∃ v, (⟨"gid", some ⟨"vg", "videoinput", "gid", ""⟩,
        some ⟨"ag", "audioinput", "gid", "Mic"⟩,
        "Unknown Capture Device"⟩ : DeviceGroup).video = some v ∧
      (⟨"gid", some ⟨"vg", "videoinput", "gid", ""⟩,
        some ⟨"ag", "audioinput", "gid", "Mic"⟩,
        "Unknown Capture Device"⟩ : DeviceGroup).label =
        (if v.label = "" then "Unknown Capture Device" else v.label) :=
  ⟨by decide,
   c9_label_fallback [⟨"vg", "videoinput", "gid", ""⟩, ⟨"ag", "audioinput", "gid", "Mic"⟩]
     _ (by decide)⟩

/-- Claim C10: descriptors with an empty `groupId` are skipped, so no
discovered group ever carries an empty group id. -/
theorem c10_no_empty_groupId (ds : List MediaDeviceInfo) (grp : DeviceGroup)
    (h : grp ∈ validGroupsOf ds) : grp.groupId ≠ "" :=
  validGroupsOf_groupId_ne ds grp h

/-- Witness for `c10_no_empty_groupId` on an input that also contains a
complete video+audio pair sharing the empty group id. -/
theorem c10_no_empty_groupId_witness :
    (⟨"gid", some ⟨"vg", "videoinput", "gid", "Cam"⟩,
        some ⟨"ag", "audioinput", "gid", "Mic"⟩, "Cam"⟩ : DeviceGroup) ∈
      validGroupsOf [⟨"v0", "videoinput", "", "CamE"⟩, ⟨"a0", "audioinput", "", "MicE"⟩,
        ⟨"vg", "videoinput", "gid", "Cam"⟩, ⟨"ag", "audioinput", "gid", "Mic"⟩] ∧
    (⟨"gid", some ⟨"vg", "videoinput", "gid", "Cam"⟩,
        some ⟨"ag", "audioinput", "gid", "Mic"⟩, "Cam"⟩ : DeviceGroup).groupId ≠ "" :=
  ⟨by decide,
   c10_no_empty_groupId
     [⟨"v0", "videoinput", "", "CamE"⟩, ⟨"a0", "audioinput", "", "MicE"⟩,
      ⟨"vg", "videoinput", "gid", "Cam"⟩, ⟨"ag", "audioinput", "gid", "Mic"⟩]
     _ (by decide)⟩

/-! ### Claim theorems: session start/stop -/

/-- Claim C5: for every group `startStream` resolves, the acquisition
request pins the exact video device id with ideal (not exact) width and
height equal to the host screen's dimensions, and the exact audio device
id with echo cancellation, noise suppression and automatic gain control
all explicitly disabled. -/
theorem c5_constraints_pinned (s : AppState) (p : StartPlatform) (group : DeviceGroup)
    (video audio : MediaDeviceInfo)
    (hfind : s.devices.find? (fun d => d.groupId == s.selectedGroupId) = some group)
    (hv : group.video = some video) (ha : group.audio = some audio) :
    (startStream s p).requested =
      [{ video := { deviceId := .exact video.deviceId,
                    width := .ideal p.screenWidth,
                    height := .ideal p.screenHeight },
         audio := { deviceId := .exact audio.deviceId,
                    echoCancellation := false,
                    noiseSuppression := false,
                    autoGainControl := false } }] := by
  obtain ⟨gid, gvideo, gaudio, glabel⟩ := group
  replace hv : gvideo = some video := hv
  replace ha : gaudio = some audio := ha
  subst hv; subst ha
  unfold startStream
  rw [hfind]
  cases p.gumResult with
  | error msg => rfl
  | ok stream =>
    cases s.videoRef with
    | none => rfl
    | some el => rfl

/-- Witness for `c5_constraints_pinned` at a concrete state. -/
theorem c5_constraints_pinned_witness :
    (startStream
      { devices := [⟨"g", some ⟨"vd", "videoinput", "g", "Cam"⟩,
          some ⟨"ad", "audioinput", "g", "Mic"⟩, "Cam"⟩],
        selectedGroupId := "g", isStreaming := false, error := none,
        videoRef := some ⟨none⟩ }
      { screenWidth := 1920, screenHeight := 1080,
        gumResult := .ok ⟨[⟨"t", true⟩]⟩ }).requested =
      [{ video := { deviceId := .exact "vd",
                    width := .ideal 1920, height := .ideal 1080 },
         audio := { deviceId := .exact "ad",
                    echoCancellation := false, noiseSuppression := false,
                    autoGainControl := false } }] :=
  c5_constraints_pinned _ _
    ⟨"g", some ⟨"vd", "videoinput", "g", "Cam"⟩, some ⟨"ad", "audioinput", "g", "Mic"⟩, "Cam"⟩
    ⟨"vd", "videoinput", "g", "Cam"⟩ ⟨"ad", "audioinput", "g", "Mic"⟩
    (by decide) rfl rfl

/-- Claim C7: with no discovered groups, or a selected id matching no
discovered group, `startStream` issues no acquisition and leaves the
state unchanged, hence Idle. -/
theorem c7_unknown_selection_noop (s : AppState) (p : StartPlatform)
    (hidle : s.isStreaming = false)
    (hunknown : ∀ grp ∈ s.devices, grp.groupId ≠ s.selectedGroupId) :
    (startStream s p).requested = [] ∧ (startStream s p).state = s ∧
      (startStream s p).state.isStreaming = false := by
  have hfind : s.devices.find? (fun d => d.groupId == s.selectedGroupId) = none := by
    rw [List.find?_eq_none]
    intro x hx
    simpa using hunknown x hx
  unfold startStream
  rw [hfind]
  exact ⟨rfl, rfl, hidle⟩

/-- Witness for `c7_unknown_selection_noop`: a state whose selected id
matches none of the discovered groups. -/
theorem c7_unknown_selection_noop_witness :
    (false = false ∧
      ∀ grp ∈ [(⟨"g", some ⟨"vd", "videoinput", "g", "Cam"⟩,
          some ⟨"ad", "audioinput", "g", "Mic"⟩, "Cam"⟩ : DeviceGroup)],
        grp.groupId ≠ "other") ∧
    (startStream
      { devices := [⟨"g", some ⟨"vd", "videoinput", "g", "Cam"⟩,
          some ⟨"ad", "audioinput", "g", "Mic"⟩, "Cam"⟩],
        selectedGroupId := "other", isStreaming := false, error := none,
        videoRef := some ⟨none⟩ }
      { screenWidth := 800, screenHeight := 600,
        gumResult := .error "NotAllowedError" }).requested = [] ∧
    (startStream
      { devices := [⟨"g", some ⟨"vd", "videoinput", "g", "Cam"⟩,
          some ⟨"ad", "audioinput", "g", "Mic"⟩, "Cam"⟩],
        selectedGroupId := "other", isStreaming := false, error := none,
        videoRef := some ⟨none⟩ }
      { screenWidth := 800, screenHeight := 600,
        gumResult := .error "NotAllowedError" }).state.isStreaming = false :=
  ⟨⟨rfl, by decide⟩,
   (c7_unknown_selection_noop _ _ rfl (by decide)).1,
   (c7_unknown_selection_noop _ _ rfl (by decide)).2.2⟩

/-- Claim C3: from a consistent Idle state with a mounted sink, a failed
acquisition leaves the state exactly as it was — Idle, no sink binding,
nothing acquired — and whenever a stream is acquired it ends up bound to
the sink with the session active, so `startStream` never terminates with
a half-bound sink or a running-but-unbound stream. -/
theorem c3_failed_start_idle (s : AppState) (p : StartPlatform) (el : VideoElem)
    (hel : s.videoRef = some el) (hidle : s.isStreaming = false)
    (hsink : el.srcObject = none) :
    (∀ msg, p.gumResult = .error msg →
      (startStream s p).state = s ∧ (startStream s p).state.isStreaming = false ∧
      (startStream s p).state.videoRef = some el ∧ el.srcObject = none ∧
      (startStream s p).acquired = none) ∧
    (∀ stream, (startStream s p).acquired = some stream →
      (startStream s p).state.videoRef = some { el with srcObject := some stream } ∧
      (startStream s p).state.isStreaming = true) := by
  cases hfind : s.devices.find? (fun d => d.groupId == s.selectedGroupId) with
  | none =>
    constructor
    · intro msg hmsg
      unfold startStream
      rw [hfind]
      exact ⟨rfl, hidle, hel, hsink, rfl⟩
    · intro stream hstream
      unfold startStream at hstream
      rw [hfind] at hstream
      cases hstream
  | some group =>
    obtain ⟨gid, gvideo, gaudio, glabel⟩ := group
    cases gvideo with
    | none =>
      cases gaudio with
      | none =>
        constructor
        · intro msg hmsg
          unfold startStream
          rw [hfind]
          exact ⟨rfl, hidle, hel, hsink, rfl⟩
        · intro stream hstream
          unfold startStream at hstream
          rw [hfind] at hstream
          cases hstream
      | some audio =>
        constructor
        · intro msg hmsg
          unfold startStream
          rw [hfind]
          exact ⟨rfl, hidle, hel, hsink, rfl⟩
        · intro stream hstream
          unfold startStream at hstream
          rw [hfind] at hstream
          cases hstream
    | some video =>
      cases gaudio with
      | none =>
        constructor
        · intro msg hmsg
          unfold startStream
          rw [hfind]
          exact ⟨rfl, hidle, hel, hsink, rfl⟩
        · intro stream hstream
          unfold startStream at hstream
          rw [hfind] at hstream
          cases hstream
      | some audio =>
        cases hgum : p.gumResult with
        | error msg0 =>
          constructor
          · intro msg hmsg
            unfold startStream
            rw [hfind, hgum]
            exact ⟨rfl, hidle, hel, hsink, rfl⟩
          · intro stream hstream
            unfold startStream at hstream
            rw [hfind, hgum] at hstream
            cases hstream
        | ok st =>
          constructor
          · intro msg hmsg
            simp at hmsg
          · intro stream hstream
            unfold startStream at hstream ⊢
            rw [hfind, hgum, hel] at hstream ⊢
            replace hstream : some st = some stream := hstream
            cases hstream
            exact ⟨rfl, rfl⟩

/-- Witness for `c3_failed_start_idle`: a concrete Idle state with a
mounted, unbound sink and a rejected acquisition. -/
theorem c3_failed_start_idle_witness :
    ((⟨[⟨"g", some ⟨"vd", "videoinput", "g", "Cam"⟩,
        some ⟨"ad", "audioinput", "g", "Mic"⟩, "Cam"⟩],
      "g", false, none, some ⟨none⟩⟩ : AppState).videoRef = some ⟨none⟩) ∧
    (startStream
      (⟨[⟨"g", some ⟨"vd", "videoinput", "g", "Cam"⟩,
          some ⟨"ad", "audioinput", "g", "Mic"⟩, "Cam"⟩],
        "g", false, none, some ⟨none⟩⟩ : AppState)
      ⟨1920, 1080, .error "NotReadableError"⟩).state =
      (⟨[⟨"g", some ⟨"vd", "videoinput", "g", "Cam"⟩,
          some ⟨"ad", "audioinput", "g", "Mic"⟩, "Cam"⟩],
        "g", false, none, some ⟨none⟩⟩ : AppState) ∧
    (startStream
      (⟨[⟨"g", some ⟨"vd", "videoinput", "g", "Cam"⟩,
          some ⟨"ad", "audioinput", "g", "Mic"⟩, "Cam"⟩],
        "g", false, none, some ⟨none⟩⟩ : AppState)
      ⟨1920, 1080, .error "NotReadableError"⟩).acquired = none :=
  ⟨rfl,
   ((c3_failed_start_idle _ ⟨1920, 1080, .error "NotReadableError"⟩ ⟨none⟩
      rfl rfl rfl).1 "NotReadableError" rfl).1,
   ((c3_failed_start_idle _ ⟨1920, 1080, .error "NotReadableError"⟩ ⟨none⟩
      rfl rfl rfl).1 "NotReadableError" rfl).2.2.2.2⟩

/-- Claim C4: every stop — the `fullscreenchange` path with no
fullscreen element (explicit or externally driven), and the media-pause
path that requests fullscreen exit — ends with streaming off, the sink
binding cleared, the previously bound stream's tracks all stopped, and
the pause path coinciding with the fullscreen-exit path. -/
theorem c4_stop_releases (s : AppState) (el : VideoElem) (hel : s.videoRef = some el) :
    (handleFullscreenChange s none).state.isStreaming = false ∧
    (handleFullscreenChange s none).state.videoRef = some (⟨none⟩ : VideoElem) ∧
    (∀ stream, el.srcObject = some stream →
      (handleFullscreenChange s none).stoppedStream = some (stopAllTracks stream)) ∧
    (∀ st, (handleFullscreenChange s none).stoppedStream = some st →
      ∀ t ∈ st.tracks, t.running = false) ∧
    pauseStop s = handleFullscreenChange s none := by
  obtain ⟨so⟩ := el
  refine ⟨?_, ?_, ?_, ?_, rfl⟩
  · unfold handleFullscreenChange
    rw [hel]
    cases so <;> rfl
  · unfold handleFullscreenChange
    rw [hel]
    cases so <;> rfl
  · intro stream hstream
    unfold handleFullscreenChange
    rw [hel]
    cases so with
    | none =>
      replace hstream : (none : Option MediaStream) = some stream := hstream
      cases hstream
    | some stream0 =>
      replace hstream : some stream0 = some stream := hstream
      cases hstream
      rfl
  · intro st hst
    unfold handleFullscreenChange at hst
    rw [hel] at hst
    cases so with
    | none =>
      replace hst : (none : Option MediaStream) = some st := hst
      cases hst
    | some stream0 =>
      replace hst : some (stopAllTracks stream0) = some st := hst
      cases hst
      intro t ht
      unfold stopAllTracks at ht
      obtain ⟨t0, _, rfl⟩ := List.mem_map.mp ht
      rfl

/-- Witness for `c4_stop_releases`: a concrete Active state with a bound
stream holding a running track. -/
theorem c4_stop_releases_witness :
    (handleFullscreenChange
      (⟨[], "g", true, none, some ⟨some ⟨[⟨"t", true⟩]⟩⟩⟩ : AppState)
      none).state.isStreaming = false ∧
    (handleFullscreenChange
      (⟨[], "g", true, none, some ⟨some ⟨[⟨"t", true⟩]⟩⟩⟩ : AppState)
      none).state.videoRef = some (⟨none⟩ : VideoElem) ∧
    (handleFullscreenChange
      (⟨[], "g", true, none, some ⟨some ⟨[⟨"t", true⟩]⟩⟩⟩ : AppState)
      none).stoppedStream = some (stopAllTracks ⟨[⟨"t", true⟩]⟩) ∧
    pauseStop (⟨[], "g", true, none, some ⟨some ⟨[⟨"t", true⟩]⟩⟩⟩ : AppState) =
      handleFullscreenChange
        (⟨[], "g", true, none, some ⟨some ⟨[⟨"t", true⟩]⟩⟩⟩ : AppState) none :=
  ⟨(c4_stop_releases _ ⟨some ⟨[⟨"t", true⟩]⟩⟩ rfl).1,
   (c4_stop_releases _ ⟨some ⟨[⟨"t", true⟩]⟩⟩ rfl).2.1,
   (c4_stop_releases _ ⟨some ⟨[⟨"t", true⟩]⟩⟩ rfl).2.2.1 ⟨[⟨"t", true⟩]⟩ rfl,
   (c4_stop_releases _ ⟨some ⟨[⟨"t", true⟩]⟩⟩ rfl).2.2.2.2⟩

/-- Claim C8: when some enumerated descriptor carries a non-empty label,
no probe is performed and grouping uses the first enumeration; when none
does, exactly one probe `getUserMedia({audio: true, video: true})` is
issued, every track of the stream it yields is stopped, and grouping uses
the re-enumerated descriptors. -/
theorem c8_probe_once (p : DiscoveryPlatform) (ds : List MediaDeviceInfo)
    (henum : p.enumerate1 = .ok ds) :
    (ds.any (fun d => d.label != "") = true →
      (initDevices p).probeRequest = none ∧
      (initDevices p).probeStopped = none ∧
      (initDevices p).devices = validGroupsOf ds) ∧
    (ds.any (fun d => d.label != "") = false →
      ∀ stream ds2, p.probeResult = .ok stream → p.enumerate2 = .ok ds2 →
        (initDevices p).probeRequest = some (true, true) ∧
        (initDevices p).probeStopped = some (stopAllTracks stream) ∧
        (∀ t ∈ (stopAllTracks stream).tracks, t.running = false) ∧
        (initDevices p).devices = validGroupsOf ds2) := by
  constructor
  · intro hlab
    simp only [initDevices, henum]
    rw [if_pos hlab]
    exact ⟨rfl, rfl, rfl⟩
  · intro hlab stream ds2 hprobe henum2
    simp only [initDevices, henum]
    rw [if_neg (by rw [hlab]; exact Bool.false_ne_true), hprobe, henum2]
    refine ⟨rfl, rfl, ?_, rfl⟩
    intro t ht
    unfold stopAllTracks at ht
    obtain ⟨t0, _, rfl⟩ := List.mem_map.mp ht
    rfl

/-- Witness for `c8_probe_once`: an all-unlabeled enumeration forcing the
probe, whose yielded stream has a running track, followed by a labeled
re-enumeration. -/
theorem c8_probe_once_witness :
    (initDevices ⟨.ok [⟨"vd", "videoinput", "g", ""⟩, ⟨"ad", "audioinput", "g", ""⟩],
        .ok ⟨[⟨"t", true⟩]⟩,
        .ok [⟨"vd", "videoinput", "g", "Cam"⟩, ⟨"ad", "audioinput", "g", "Mic"⟩]⟩).probeRequest =
      some (true, true) ∧
    (initDevices ⟨.ok [⟨"vd", "videoinput", "g", ""⟩, ⟨"ad", "audioinput", "g", ""⟩],
        .ok ⟨[⟨"t", true⟩]⟩,
        .ok [⟨"vd", "videoinput", "g", "Cam"⟩, ⟨"ad", "audioinput", "g", "Mic"⟩]⟩).probeStopped =
      some (stopAllTracks ⟨[⟨"t", true⟩]⟩) ∧
    (∀ t ∈ (stopAllTracks ⟨[⟨"t", true⟩]⟩).tracks, t.running = false) ∧
    (initDevices ⟨.ok [⟨"vd", "videoinput", "g", ""⟩, ⟨"ad", "audioinput", "g", ""⟩],
        .ok ⟨[⟨"t", true⟩]⟩,
        .ok [⟨"vd", "videoinput", "g", "Cam"⟩, ⟨"ad", "audioinput", "g", "Mic"⟩]⟩).devices =
      validGroupsOf [⟨"vd", "videoinput", "g", "Cam"⟩, ⟨"ad", "audioinput", "g", "Mic"⟩] :=
  (c8_probe_once
    ⟨.ok [⟨"vd", "videoinput", "g", ""⟩, ⟨"ad", "audioinput", "g", ""⟩],
     .ok ⟨[⟨"t", true⟩]⟩,
     .ok [⟨"vd", "videoinput", "g", "Cam"⟩, ⟨"ad", "audioinput", "g", "Mic"⟩]⟩
    [⟨"vd", "videoinput", "g", ""⟩, ⟨"ad", "audioinput", "g", ""⟩] rfl).2
    (by decide) ⟨[⟨"t", true⟩]⟩
    [⟨"vd", "videoinput", "g", "Cam"⟩, ⟨"ad", "audioinput", "g", "Mic"⟩] rfl rfl

/-- Claim C1 asserts that `startStream` invoked while the session is not
Idle is rejected.  The code has no such guard: this theorem evaluates
`startStream` on an Active state (`isStreaming = true`, a stream already
bound to the sink) and shows it still issues a `getUserMedia`
acquisition — the second acquisition the claim forbids — and rebinds the
sink, so the claim fails on the code. -/
theorem c1_no_reentrancy_guard :
    (⟨[⟨"g", some ⟨"vd", "videoinput", "g", "Cam"⟩,
        some ⟨"ad", "audioinput", "g", "Mic"⟩, "Cam"⟩],
      "g", true, none, some ⟨some ⟨[⟨"t1", true⟩]⟩⟩⟩ : AppState).isStreaming = true ∧
    (startStream
      (⟨[⟨"g", some ⟨"vd", "videoinput", "g", "Cam"⟩,
          some ⟨"ad", "audioinput", "g", "Mic"⟩, "Cam"⟩],
        "g", true, none, some ⟨some ⟨[⟨"t1", true⟩]⟩⟩⟩ : AppState)
      ⟨1920, 1080, .ok ⟨[⟨"t2", true⟩]⟩⟩).requested ≠ [] ∧
    (startStream
      (⟨[⟨"g", some ⟨"vd", "videoinput", "g", "Cam"⟩,
          some ⟨"ad", "audioinput", "g", "Mic"⟩, "Cam"⟩],
        "g", true, none, some ⟨some ⟨[⟨"t1", true⟩]⟩⟩⟩ : AppState)
      ⟨1920, 1080, .ok ⟨[⟨"t2", true⟩]⟩⟩).acquired = some ⟨[⟨"t2", true⟩]⟩ := by
  decide

/-! ### Key-order lemmas for discovery ordering -/

theorem indexOf_append_mem (l1 l2 : List String) (a : String) (h : a ∈ l1) :
    (l1 ++ l2).indexOf a = l1.indexOf a := by
  induction l1 with
  | nil => simp at h
  | cons x rest ih =>
    by_cases hx : x = a
    · subst hx
      rw [List.cons_append, List.indexOf_cons_self, List.indexOf_cons_self]
    · have h2 : a ∈ rest := by
        rcases List.mem_cons.mp h with hh | hh
        · exact absurd hh.symm hx
        · exact hh
      rw [List.cons_append, List.indexOf_cons_ne _ hx, List.indexOf_cons_ne _ hx, ih h2]

theorem indexOf_append_not_mem (l1 l2 : List String) (a : String) (h : a ∉ l1) :
    (l1 ++ l2).indexOf a = l1.length + l2.indexOf a := by
  induction l1 with
  | nil => simp
  | cons x rest ih =>
    have hx : x ≠ a := fun hh => h (hh ▸ List.mem_cons_self x rest)
    have h2 : a ∉ rest := fun hh => h (List.mem_cons_of_mem _ hh)
    rw [List.cons_append, List.indexOf_cons_ne _ hx, ih h2, List.length_cons]
    omega

theorem indexOf_filter_lt (l : List String) (p : String → Bool) (a b : String)
    (ha : a ∈ l.filter p) (hb : b ∈ l.filter p) (h : l.indexOf a < l.indexOf b) :
    (l.filter p).indexOf a < (l.filter p).indexOf b := by
  induction l with
  | nil => simp at ha
  | cons x rest ih =>
    have hab : a ≠ b := by
      intro hh
      subst hh
      exact lt_irrefl _ h
    by_cases hxa : x = a
    · subst hxa
      have hpx : p x = true := (List.mem_filter.mp ha).2
      rw [List.filter_cons_of_pos hpx, List.indexOf_cons_self,
        List.indexOf_cons_ne _ hab]
      exact Nat.succ_pos _
    · by_cases hxb : x = b
      · subst hxb
        rw [List.indexOf_cons_self] at h
        exact absurd h (Nat.not_lt_zero _)
      · rw [List.indexOf_cons_ne _ hxa, List.indexOf_cons_ne _ hxb] at h
        have h2 : rest.indexOf a < rest.indexOf b := Nat.succ_lt_succ_iff.mp h
        cases hpx : p x with
        | true =>
          rw [List.filter_cons_of_pos hpx] at ha hb ⊢
          have ha2 : a ∈ rest.filter p := by
            rcases List.mem_cons.mp ha with hh | hh
            · exact absurd hh.symm hxa
            · exact hh
          have hb2 : b ∈ rest.filter p := by
            rcases List.mem_cons.mp hb with hh | hh
            · exact absurd hh.symm hxb
            · exact hh
          rw [List.indexOf_cons_ne _ hxa, List.indexOf_cons_ne _ hxb]
          exact Nat.succ_lt_succ (ih ha2 hb2 h2)
        | false =>
          rw [List.filter_cons_of_neg (by simp [hpx])] at ha hb ⊢
          exact ih ha hb h2

theorem buildGroups_append (l1 l2 : List MediaDeviceInfo) (acc : GroupMap) :
    buildGroups (l1 ++ l2) acc = buildGroups l2 (buildGroups l1 acc) := by
  induction l1 generalizing acc with
  | nil => rfl
  | cons d rest ih => exact ih (addDevice acc d)

theorem recordKeys_addDevice (acc : GroupMap) (d : MediaDeviceInfo) :
    recordKeys (addDevice acc d) = recordKeys acc ∨
    recordKeys (addDevice acc d) = recordKeys acc ++ [d.groupId] := by
  unfold addDevice
  by_cases hg : d.groupId = ""
  · rw [if_pos hg]; exact Or.inl rfl
  · rw [if_neg hg, recordKeys_recordSet]
    by_cases hm : d.groupId ∈ recordKeys acc
    · rw [if_pos hm]; exact Or.inl rfl
    · rw [if_neg hm]; exact Or.inr rfl

theorem keys_buildGroups_ext (ds : List MediaDeviceInfo) (acc : GroupMap) :
    ∃ ext, recordKeys (buildGroups ds acc) = recordKeys acc ++ ext := by
  induction ds generalizing acc with
  | nil => exact ⟨[], by simp [buildGroups]⟩
  | cons d rest ih =>
    obtain ⟨ext1, hext1⟩ := ih (addDevice acc d)
    show ∃ ext, recordKeys (buildGroups rest (addDevice acc d)) = recordKeys acc ++ ext
    rcases recordKeys_addDevice acc d with h | h
    · exact ⟨ext1, by rw [hext1, h]⟩
    · exact ⟨[d.groupId] ++ ext1, by rw [hext1, h, List.append_assoc]⟩

theorem mem_keys_buildGroups (ds : List MediaDeviceInfo) (k : String) (hk : k ≠ "") :
    k ∈ recordKeys (buildGroups ds []) ↔ ∃ d ∈ ds, d.groupId = k := by
  rw [mem_recordKeys_iff_isSome, recordGet_buildGroups_eq ds k hk]
  by_cases hf : ds.filter (fun d => d.groupId == k) = []
  · rw [if_pos hf]
    simp only [Option.isSome_none, Bool.false_eq_true, false_iff]
    rintro ⟨d, hd, hdk⟩
    rw [List.filter_eq_nil_iff] at hf
    exact hf d hd (by simp [hdk])
  · rw [if_neg hf]
    simp only [Option.isSome_some, true_iff]
    obtain ⟨d, hd⟩ := List.exists_mem_of_ne_nil _ hf
    have hmem := List.mem_filter.mp hd
    exact ⟨d, hmem.1, by simpa using hmem.2⟩

theorem keys_order (ds : List MediaDeviceInfo) (g1 g2 : String)
    (hg1 : g1 ≠ "") (hg2 : g2 ≠ "")
    (h1 : ∃ d ∈ ds, d.groupId = g1)
    (horder : ds.findIdx (fun d => d.groupId == g1) <
      ds.findIdx (fun d => d.groupId == g2)) :
    (recordKeys (buildGroups ds [])).indexOf g1 <
      (recordKeys (buildGroups ds [])).indexOf g2 := by
  set i1 := ds.findIdx (fun d => d.groupId == g1) with hi1
  have hfound : i1 < ds.length := by
    apply List.findIdx_lt_length_of_exists
    obtain ⟨d, hd, hdk⟩ := h1
    exact ⟨d, hd, by simp [hdk]⟩
  have hg1A : g1 ∈ recordKeys (buildGroups (ds.take (i1 + 1)) []) := by
    rw [mem_keys_buildGroups _ _ hg1]
    have hlen : i1 < (ds.take (i1 + 1)).length := by
      rw [List.length_take]
      exact lt_min (Nat.lt_succ_self _) hfound
    refine ⟨(ds.take (i1 + 1)).get ⟨i1, hlen⟩, List.get_mem _ _ _, ?_⟩
    have hgetEq : (ds.take (i1 + 1)).get ⟨i1, hlen⟩ = ds[i1] := by
      simp [List.getElem_take]
    rw [hgetEq]
    have hp := @List.findIdx_getElem _ (fun d => d.groupId == g1) ds hfound
    simpa using hp
  have hg2A : g2 ∉ recordKeys (buildGroups (ds.take (i1 + 1)) []) := by
    rw [mem_keys_buildGroups _ _ hg2]
    rintro ⟨d, hd, hdk⟩
    obtain ⟨j, hj, hdj⟩ := List.mem_iff_getElem.mp hd
    have hji : j < i1 + 1 := by
      have := hj
      rw [List.length_take] at this
      exact lt_of_lt_of_le this (min_le_left _ _)
    have hjlen : j < ds.length := by
      have := hj
      rw [List.length_take] at this
      exact lt_of_lt_of_le this (min_le_right _ _)
    have hjlt : j < ds.findIdx (fun d => d.groupId == g2) := by omega
    have hfalse : (fun d => d.groupId == g2) ds[j] = false :=
      List.not_of_lt_findIdx hjlt
    rw [List.getElem_take] at hdj
    rw [hdj] at hfalse
    simp [hdk] at hfalse
  obtain ⟨ext, hext⟩ :=
    keys_buildGroups_ext (ds.drop (i1 + 1)) (buildGroups (ds.take (i1 + 1)) [])
  have hks : recordKeys (buildGroups ds []) =
      recordKeys (buildGroups (ds.take (i1 + 1)) []) ++ ext := by
    conv_lhs => rw [show ds = ds.take (i1 + 1) ++ ds.drop (i1 + 1) from
      (List.take_append_drop _ _).symm, buildGroups_append]
    exact hext
  rw [hks, indexOf_append_mem _ _ _ hg1A, indexOf_append_not_mem _ _ _ hg2A]
  have hlt := List.indexOf_lt_length.mpr hg1A
  omega

theorem recordGet_cons_self (k : String) (v : List MediaDeviceInfo) (m : GroupMap) :
    recordGet ((k, v) :: m) k = some v := by
  simp [recordGet]

theorem recordGet_cons_ne (k k' : String) (v : List MediaDeviceInfo) (m : GroupMap)
    (h : k ≠ k') : recordGet ((k, v) :: m) k' = recordGet m k' := by
  simp [recordGet, h]

theorem goodMap_tail (k : String) (v : List MediaDeviceInfo) (rest : GroupMap)
    (h : GoodMap ((k, v) :: rest)) : GoodMap rest := by
  obtain ⟨hnd, hent⟩ := h
  rw [recordKeys_cons] at hnd
  exact ⟨(List.nodup_cons.mp hnd).2, fun e he => hent e (List.mem_cons_of_mem _ he)⟩

theorem groupFromBucket_isSome_iff (v : List MediaDeviceInfo) :
    (groupFromBucket v).isSome =
      ((v.find? (fun d => d.kind == "videoinput")).isSome &&
       (v.find? (fun d => d.kind == "audioinput")).isSome) := by
  unfold groupFromBucket
  cases v.find? (fun d => d.kind == "videoinput") <;>
    cases v.find? (fun d => d.kind == "audioinput") <;> rfl

theorem map_groupId_filterMap (m : GroupMap) (hgood : GoodMap m) :
    ((m.map Prod.snd).filterMap groupFromBucket).map (fun g => g.groupId) =
      (recordKeys m).filter (fun k => bucketComplete m k) := by
  induction m with
  | nil => rfl
  | cons e rest ih =>
    obtain ⟨k, v⟩ := e
    have htail := goodMap_tail k v rest hgood
    have hkeys_ne : ∀ k' ∈ recordKeys rest, k ≠ k' := by
      intro k' hk' heq
      have hnd := hgood.1
      rw [recordKeys_cons] at hnd
      exact (List.nodup_cons.mp hnd).1 (heq ▸ hk')
    have hfilter_eq : (recordKeys rest).filter (fun x => bucketComplete ((k, v) :: rest) x) =
        (recordKeys rest).filter (fun x => bucketComplete rest x) := by
      apply List.filter_congr
      intro k' hk'
      unfold bucketComplete
      rw [recordGet_cons_ne _ _ _ _ (hkeys_ne k' hk')]
    rw [List.map_cons, List.filterMap_cons, recordKeys_cons, List.filter_cons]
    cases hgb : groupFromBucket v with
    | none =>
      have hbc : bucketComplete ((k, v) :: rest) k = false := by
        unfold bucketComplete
        rw [recordGet_cons_self]
        have hiff := groupFromBucket_isSome_iff v
        rw [hgb] at hiff
        simpa using hiff.symm
      rw [hbc]
      simp only [Bool.false_eq_true, if_false]
      rw [ih htail] at *
      rw [← hfilter_eq]
    | some g =>
      have hbc : bucketComplete ((k, v) :: rest) k = true := by
        unfold bucketComplete
        rw [recordGet_cons_self]
        have hiff := groupFromBucket_isSome_iff v
        rw [hgb] at hiff
        simpa using hiff.symm
      have hgid : g.groupId = k := by
        obtain ⟨video, audio, hv, ha, rfl⟩ := groupFromBucket_eq_some v g hgb
        exact (hgood.2 (k, v) (List.mem_cons_self _ _)).2.2 video
          (List.mem_of_find?_eq_some hv)
      rw [hbc]
      simp only [if_pos]
      rw [List.map_cons, hgid, ih htail, ← hfilter_eq]

theorem validGroupsOf_map_groupId (ds : List MediaDeviceInfo)
    (hnoidx : ∀ d ∈ ds, isArrayIndexKey d.groupId = false) :
    (validGroupsOf ds).map (fun g => g.groupId) =
      (recordKeys (buildGroups ds [])).filter
        (fun k => bucketComplete (buildGroups ds []) k) := by
  have hgood := goodMap_buildGroups ds [] goodMap_nil
  have hksnoidx : ∀ e ∈ buildGroups ds [], isArrayIndexKey e.1 = false := by
    intro e he
    have hk1 : e.1 ∈ recordKeys (buildGroups ds []) := mem_recordKeys_of_mem _ _ he
    have hkne : e.1 ≠ "" := (hgood.2 e he).1
    obtain ⟨d, hd, hdk⟩ := (mem_keys_buildGroups ds e.1 hkne).mp hk1
    rw [← hdk]
    exact hnoidx d hd
  have hobj : objectValues (buildGroups ds []) = (buildGroups ds []).map Prod.snd := by
    unfold objectValues
    have hfilter_nil : (buildGroups ds []).filter (fun e => isArrayIndexKey e.1) = [] := by
      rw [List.filter_eq_nil_iff]
      intro e he
      simp [hksnoidx e he]
    have hfilter_self :
        (buildGroups ds []).filter (fun e => !isArrayIndexKey e.1) = buildGroups ds [] := by
      rw [List.filter_eq_self]
      intro e he
      simp [hksnoidx e he]
    rw [hfilter_nil, hfilter_self]
    rfl
  unfold validGroupsOf
  rw [collectValidGroups_eq, List.nil_append, hobj]
  exact map_groupId_filterMap _ hgood

theorem bucketComplete_of_pair (ds : List MediaDeviceInfo) (g : String) (hg : g ≠ "")
    (hv : ∃ d ∈ ds, d.kind = "videoinput" ∧ d.groupId = g)
    (ha : ∃ d ∈ ds, d.kind = "audioinput" ∧ d.groupId = g) :
    bucketComplete (buildGroups ds []) g = true := by
  obtain ⟨v, hvds, hvk, hvg⟩ := hv
  obtain ⟨a, hads, hak, hag⟩ := ha
  have hfne : ds.filter (fun d => d.groupId == g) ≠ [] := by
    intro hq
    rw [List.filter_eq_nil_iff] at hq
    exact hq v hvds (by simp [hvg])
  unfold bucketComplete
  rw [recordGet_buildGroups_eq ds g hg, if_neg hfne]
  simp only [Option.getD_some]
  have h1 : ((ds.filter (fun d => d.groupId == g)).find?
      (fun d => d.kind == "videoinput")).isSome := by
    rw [List.find?_isSome]
    exact ⟨v, List.mem_filter.mpr ⟨hvds, by simp [hvg]⟩, by simp [hvk]⟩
  have h2 : ((ds.filter (fun d => d.groupId == g)).find?
      (fun d => d.kind == "audioinput")).isSome := by
    rw [List.find?_isSome]
    exact ⟨a, List.mem_filter.mpr ⟨hads, by simp [hag]⟩, by simp [hak]⟩
  rw [h1, h2]
  rfl

/-- Claim C6, as stated, is false: JavaScript objects enumerate canonical
array-index keys (like these numeric group ids) in ascending numeric
order before insertion order, so with the complete group "2" encountered
before the complete group "1", discovery returns "1" first. -/
theorem c6_counterexample :
    (let ds := [(⟨"v1", "videoinput", "2", "Cam A"⟩ : MediaDeviceInfo),
        ⟨"a1", "audioinput", "2", "Mic A"⟩,
        ⟨"v2", "videoinput", "1", "Cam B"⟩, ⟨"a2", "audioinput", "1", "Mic B"⟩];
     ds.findIdx (fun d => d.groupId == "2") < ds.findIdx (fun d => d.groupId == "1") ∧
     (validGroupsOf ds).map (fun g => g.groupId) = ["1", "2"] ∧
     ¬ (((validGroupsOf ds).map (fun g => g.groupId)).indexOf "2" <
        ((validGroupsOf ds).map (fun g => g.groupId)).indexOf "1")) := by decide

/-- Claim C6, amended: provided no descriptor's groupId is a canonical
array-index string (the JavaScript object numeric-key ordering
exception), when complete group g1 is encountered before complete group
g2, discovery returns g1 before g2, and the initial selection equals the
first returned group's groupId. -/
theorem c6_order_preserved (p : DiscoveryPlatform) (ds : List MediaDeviceInfo)
    (g1 g2 : String)
    (henum : p.enumerate1 = .ok ds)
    (hlab : ds.any (fun d => d.label != "") = true)
    (hnoidx : ∀ d ∈ ds, isArrayIndexKey d.groupId = false)
    (hg1 : g1 ≠ "") (hg2 : g2 ≠ "")
    (hv1 : ∃ d ∈ ds, d.kind = "videoinput" ∧ d.groupId = g1)
    (ha1 : ∃ d ∈ ds, d.kind = "audioinput" ∧ d.groupId = g1)
    (hv2 : ∃ d ∈ ds, d.kind = "videoinput" ∧ d.groupId = g2)
    (ha2 : ∃ d ∈ ds, d.kind = "audioinput" ∧ d.groupId = g2)
    (horder : ds.findIdx (fun d => d.groupId == g1) <
      ds.findIdx (fun d => d.groupId == g2)) :
    g1 ∈ ((initDevices p).devices).map (fun g => g.groupId) ∧
    g2 ∈ ((initDevices p).devices).map (fun g => g.groupId) ∧
    (((initDevices p).devices).map (fun g => g.groupId)).indexOf g1 <
      (((initDevices p).devices).map (fun g => g.groupId)).indexOf g2 ∧
    ∃ first, (initDevices p).devices.head? = some first ∧
      (initDevices p).selectedGroupId = first.groupId := by
  have hdev : (initDevices p).devices = validGroupsOf ds := by
    simp only [initDevices, henum]
    rw [if_pos hlab]
    rfl
  have hsel : (initDevices p).selectedGroupId =
      (match (validGroupsOf ds).head? with
       | some gfirst => gfirst.groupId
       | none => "") := by
    simp only [initDevices, henum]
    rw [if_pos hlab]
    rfl
  have hmap := validGroupsOf_map_groupId ds hnoidx
  have hmem1 : g1 ∈ (validGroupsOf ds).map (fun g => g.groupId) := by
    obtain ⟨grp, hgrp, hgid⟩ := (exists_validGroup_iff ds g1 hg1).mpr ⟨hv1, ha1⟩
    exact List.mem_map.mpr ⟨grp, hgrp, hgid⟩
  have hmem2 : g2 ∈ (validGroupsOf ds).map (fun g => g.groupId) := by
    obtain ⟨grp, hgrp, hgid⟩ := (exists_validGroup_iff ds g2 hg2).mpr ⟨hv2, ha2⟩
    exact List.mem_map.mpr ⟨grp, hgrp, hgid⟩
  have horder2 : ((validGroupsOf ds).map (fun g => g.groupId)).indexOf g1 <
      ((validGroupsOf ds).map (fun g => g.groupId)).indexOf g2 := by
    rw [hmap]
    rw [hmap] at hmem1 hmem2
    apply indexOf_filter_lt _ _ _ _ hmem1 hmem2
    apply keys_order ds g1 g2 hg1 hg2
    · obtain ⟨d, hd, _, hdg⟩ := hv1
      exact ⟨d, hd, hdg⟩
    · exact horder
  refine ⟨?_, ?_, ?_, ?_⟩
  · rw [hdev]
    rw [hmap] at hmem1
    rw [hmap]
    exact hmem1
  · rw [hdev]
    rw [hmap] at hmem2
    rw [hmap]
    exact hmem2
  · rw [hdev]
    exact horder2
  · cases hl : validGroupsOf ds with
    | nil =>
      rw [hl] at hmem1
      simp at hmem1
    | cons first rest =>
      refine ⟨first, ?_, ?_⟩
      · rw [hdev, hl]
        rfl
      · rw [hsel, hl]
        rfl

/-- Witness for `c6_order_preserved` at a concrete platform with two
complete groups "ga" (first) and "gb" (second). -/
theorem c6_order_preserved_witness :
    "ga" ∈ ((initDevices ⟨.ok [⟨"v1", "videoinput", "ga", "Cam A"⟩,
        ⟨"a1", "audioinput", "ga", "Mic A"⟩, ⟨"v2", "videoinput", "gb", "Cam B"⟩,
        ⟨"a2", "audioinput", "gb", "Mic B"⟩], .error "unused",
        .ok []⟩).devices).map (fun g => g.groupId) ∧
    "gb" ∈ ((initDevices ⟨.ok [⟨"v1", "videoinput", "ga", "Cam A"⟩,
        ⟨"a1", "audioinput", "ga", "Mic A"⟩, ⟨"v2", "videoinput", "gb", "Cam B"⟩,
        ⟨"a2", "audioinput", "gb", "Mic B"⟩], .error "unused",
        .ok []⟩).devices).map (fun g => g.groupId) ∧
    (((initDevices ⟨.ok [⟨"v1", "videoinput", "ga", "Cam A"⟩,
        ⟨"a1", "audioinput", "ga", "Mic A"⟩, ⟨"v2", "videoinput", "gb", "Cam B"⟩,
        ⟨"a2", "audioinput", "gb", "Mic B"⟩], .error "unused",
        .ok []⟩).devices).map (fun g => g.groupId)).indexOf "ga" <
      (((initDevices ⟨.ok [⟨"v1", "videoinput", "ga", "Cam A"⟩,
        ⟨"a1", "audioinput", "ga", "Mic A"⟩, ⟨"v2", "videoinput", "gb", "Cam B"⟩,
        ⟨"a2", "audioinput", "gb", "Mic B"⟩], .error "unused",
        .ok []⟩).devices).map (fun g => g.groupId)).indexOf "gb" ∧
    ∃ first, (initDevices ⟨.ok [⟨"v1", "videoinput", "ga", "Cam A"⟩,
        ⟨"a1", "audioinput", "ga", "Mic A"⟩, ⟨"v2", "videoinput", "gb", "Cam B"⟩,
        ⟨"a2", "audioinput", "gb", "Mic B"⟩], .error "unused",
        .ok []⟩).devices.head? = some first ∧
      (initDevices ⟨.ok [⟨"v1", "videoinput", "ga", "Cam A"⟩,
        ⟨"a1", "audioinput", "ga", "Mic A"⟩, ⟨"v2", "videoinput", "gb", "Cam B"⟩,
        ⟨"a2", "audioinput", "gb", "Mic B"⟩], .error "unused",
        .ok []⟩).selectedGroupId = first.groupId :=
  c6_order_preserved
    ⟨.ok [⟨"v1", "videoinput", "ga", "Cam A"⟩, ⟨"a1", "audioinput", "ga", "Mic A"⟩,
      ⟨"v2", "videoinput", "gb", "Cam B"⟩, ⟨"a2", "audioinput", "gb", "Mic B"⟩],
     .error "unused", .ok []⟩
    [⟨"v1", "videoinput", "ga", "Cam A"⟩, ⟨"a1", "audioinput", "ga", "Mic A"⟩,
     ⟨"v2", "videoinput", "gb", "Cam B"⟩, ⟨"a2", "audioinput", "gb", "Mic B"⟩]
    "ga" "gb" rfl (by decide) (by decide) (by decide) (by decide)
    (by decide) (by decide) (by decide) (by decide) (by decide)
